import Mathlib

/-!
Shallow embedding of the `groq_chat` Telegram chatbot core
(`src/groq_chat/groq_chat.py` and `src/groq_chat/handlers.py`) and proofs
about it.

Modelling conventions:
* A Python `context.user_data` dict is modelled by the `UserData` structure;
  an absent key is `none`.
* The Groq streaming response is abstracted to the list of `delta.content`
  values (`Option String`, since the SDK delivers `None` deltas), plus a
  flag `err` saying whether the upstream iteration raises after those
  fragments instead of terminating normally.
* A Python generator is modelled by the list of values it yields; an
  exception escaping a handler is modelled by an explicit outcome value.
-/

namespace GroqChat

/-- One entry of `context.user_data["messages"]`: a dict with keys `role`
and `content`, as built in `handlers.py` and `groq_chat.py`. -/
structure Turn where
  role : String
  content : String
deriving DecidableEq

/-- The per-conversation state kept in Telegram's `context.user_data`:
the keys `messages`, `model` and `system_prompt` used by the handlers.
`none` models an absent key. -/
structure UserData where
  messages : Option (List Turn) := none
  model : Option String := none
  system_prompt : Option String := none
deriving DecidableEq

/-- `telegram.ext.ConversationHandler.END`, the value handlers return to
leave the conversation (dialog back to its idle state). -/
def ConversationHandler_END : Int := -1

/-- `new_chat` (`handlers.py` lines 16-25): if `system_prompt` is present,
reset `messages` to the single system turn, else to the empty list. -/
def new_chat (ud : UserData) : UserData :=
  match ud.system_prompt with
  | some sp => { ud with messages := some [⟨"system", sp⟩] }
  | none => { ud with messages := some [] }

/-- Python `str.lower()` restricted to the characters the code compares
(ASCII): lower-case every character. -/
def pyLower (s : String) : String := s.map Char.toLower

/-- Python `str.strip()`: drop leading and trailing whitespace. -/
def pyStrip (s : String) : String :=
  String.mk (((s.data.dropWhile Char.isWhitespace).reverse.dropWhile
    Char.isWhitespace).reverse)

/-- `get_system_prompt` (`handlers.py` lines 113-125): if the inbound text
lower-cased and stripped equals `"clear"`, pop `system_prompt`; otherwise
store the literal text as `system_prompt`. Either way call `new_chat` and
return `ConversationHandler.END`. -/
def get_system_prompt (ud : UserData) (text : String) : UserData × Int :=
  let ud' :=
    if pyStrip (pyLower text) = "clear" then
      { ud with system_prompt := none }
    else
      { ud with system_prompt := some text }
  (new_chat ud', ConversationHandler_END)

/-- `cancelled_system_prompt` (`handlers.py` lines 105-110): reply only,
touch nothing in `user_data`, return `ConversationHandler.END`. -/
def cancelled_system_prompt (ud : UserData) : UserData × Int :=
  (ud, ConversationHandler_END)

/-- The model list offered as buttons by `model_command_handler`
(`handlers.py` line 68). -/
def models : List String :=
  ["llama3-8b-8192", "llama3-70b-8192", "mixtral-8x7b-32768", "gemma-7b-it"]

/-- Python `str.replace(old, new)` on explicit character lists: scan left
to right, rewriting each non-overlapping occurrence of `old`. The extra
`Nat` argument bounds the recursion; `pyReplace` supplies the input length,
which suffices because every step consumes at least one character (the
code only ever replaces the non-empty pattern `"change_model_"`). -/
def pyReplaceAux (old new : List Char) : Nat → List Char → List Char
  | _, [] => []
  | 0, cs => cs
  | fuel + 1, c :: rest =>
    if old.isPrefixOf (c :: rest) then
      new ++ pyReplaceAux old new fuel (List.drop (old.length - 1) rest)
    else
      c :: pyReplaceAux old new fuel rest

/-- Python `s.replace(old, new)`. -/
def pyReplace (s old new : String) : String :=
  String.mk (pyReplaceAux old.data new.data s.data.length s.data)

/-- `change_model_callback_handler` (`handlers.py` lines 80-92): take the
callback data, delete every occurrence of the substring `"change_model_"`
(Python `str.replace` replaces all occurrences), and store the result as
`user_data["model"]`. No validation against `models` happens. -/
def change_model_callback_handler (ud : UserData) (callback_data : String) :
    UserData :=
  let model := pyReplace callback_data "change_model_" ""
  { ud with model := some model }

/-- The effect of one loop iteration of `generate_response`
(`groq_chat.py` lines 28-29) on `response_queue`: append the fragment when
`resp.choices[0].delta.content` is truthy (neither `None` nor `""`). -/
def stepQueue (queue : String) (frag : Option String) : String :=
  match frag with
  | some s => if s = "" then queue else queue ++ s
  | none => queue

/-- The `for` loop of `generate_response` (`groq_chat.py` lines 23-32):
fold over the fragment stream, yielding `response_queue` and resetting it
whenever its length exceeds 100. Returns the list of yielded chunks and the
value of `response_queue` when the stream ends. -/
def genLoop : List (Option String) → String → List String × String
  | [], queue => ([], queue)
  | frag :: rest, queue =>
    let q' := stepQueue queue frag
    if 100 < q'.length then
      (q' :: (genLoop rest "").1, (genLoop rest "").2)
    else
      genLoop rest q'

/-- The chunk stream produced by the generator `generate_response`
(`groq_chat.py` lines 22-33). On normal termination of the upstream stream
the trailing `yield response_queue` (line 33) runs, so the chunks are the
loop's yields followed by the leftover queue. If the upstream iteration
raises (`err = true`) the exception propagates out of the generator after
the loop's yields and line 33 never runs; the error value carries the
chunks that were yielded before the failure. -/
def generate_chunks (frags : List (Option String)) (err : Bool) :
    Except (List String) (List String) :=
  if err then .error (genLoop frags "").1
  else .ok ((genLoop frags "").1 ++ [(genLoop frags "").2])

/-- `generate_response` (`groq_chat.py` lines 14-33): append the user turn
to `user_data["messages"]` (lines 16-21), then stream chunks as in
`generate_chunks`. -/
def generate_response (ud : UserData) (message : String)
    (frags : List (Option String)) (err : Bool) :
    UserData × Except (List String) (List String) :=
  ({ ud with messages := some (ud.messages.getD [] ++ [⟨"user", message⟩]) },
   generate_chunks frags err)

/-- The accumulation of `full_output_message` in `message_handler`
(`handlers.py` lines 143-146): concatenate every truthy chunk. -/
def accumulateOutput (chunks : List String) : String :=
  chunks.foldl (fun acc c => if c = "" then acc else acc ++ c) ""

/-- Observable outcome of one `message_handler` call. -/
inductive HandlerOutcome where
  /-- `update.message.text` was falsy: the handler returned at line 140. -/
  | emptyMessage
  /-- the stream finished and the history append at line 151 ran. -/
  | completed
  /-- an exception escaped the `generate_response` loop, so the handler
  died before line 151; the framework's error handler takes over. -/
  | raised
deriving DecidableEq

/-- `message_handler` (`handlers.py` lines 128-156): default the `model`
and `messages` keys (lines 130-134), return early when the text is falsy
(lines 138-140), otherwise drive `generate_response` and, if the stream
completes, append `full_output_message` to `messages` with role
`"system"` (lines 151-156, sic — the source writes `"system"`, not
`"assistant"`). -/
def message_handler (ud : UserData) (text : String)
    (frags : List (Option String)) (err : Bool) : UserData × HandlerOutcome :=
  let ud₁ := if ud.model.isNone then { ud with model := some "llama3-8b-8192" } else ud
  let ud₂ := if ud₁.messages.isNone then { ud₁ with messages := some [] } else ud₁
  if text = "" then
    (ud₂, .emptyMessage)
  else
    match generate_response ud₂ text frags err with
    | (ud₃, .error _) => (ud₃, .raised)
    | (ud₃, .ok chunks) =>
      let full := accumulateOutput chunks
      ({ ud₃ with messages := some (ud₃.messages.getD [] ++ [⟨"system", full⟩]) },
       .completed)

/-- The text a fragment contributes to the accumulated output: the string
itself for a present fragment, nothing for a `None` delta. -/
def fragVal : Option String → String
  | some s => s
  | none => ""

/-- Concatenation of a whole fragment stream. -/
def fragsConcat : List (Option String) → String
  | [] => ""
  | frag :: rest => fragVal frag ++ fragsConcat rest

/-- Concatenation of a list of strings. -/
def strJoin : List String → String
  | [] => ""
  | s :: rest => s ++ strJoin rest

/-- The successive values of the caller's accumulator after each chunk:
`accumTexts chunks acc` lists `acc ++ c₁`, `acc ++ c₁ ++ c₂`, ... -/
def accumTexts : List String → String → List String
  | [], _ => []
  | c :: rest, acc => (acc ++ c) :: accumTexts rest (acc ++ c)

/-- One string extends another by appending. -/
def ExtendsByAppend (a b : String) : Prop := ∃ t, b = a ++ t

lemma stepQueue_eq (q : String) (f : Option String) :
    stepQueue q f = q ++ fragVal f := by
  cases f with
  | none => simp [stepQueue, fragVal]
  | some s =>
    by_cases h : s = ""
    · simp [stepQueue, fragVal, h]
    · simp [stepQueue, fragVal, h]

lemma genLoop_join : ∀ (frags : List (Option String)) (q : String),
    strJoin (genLoop frags q).1 ++ (genLoop frags q).2 = q ++ fragsConcat frags := by
  intro frags
  induction frags with
  | nil => intro q; simp [genLoop, strJoin, fragsConcat]
  | cons f rest ih =>
    intro q
    simp only [genLoop, stepQueue_eq, fragsConcat]
    split
    · simp only [strJoin]
      rw [String.append_assoc, ih "", String.empty_append, String.append_assoc]
    · rw [ih (q ++ fragVal f), String.append_assoc]

lemma genLoop_chunks_long : ∀ (frags : List (Option String)) (q c : String),
    c ∈ (genLoop frags q).1 → 100 < c.length := by
  intro frags
  induction frags with
  | nil => intro q c hc; simp [genLoop] at hc
  | cons f rest ih =>
    intro q c hc
    simp only [genLoop, stepQueue_eq] at hc
    split at hc
    next h =>
      rcases List.mem_cons.mp hc with h' | h'
      · exact h' ▸ h
      · exact ih "" c h'
    next h => exact ih _ c hc

lemma genLoop_final_short : ∀ (frags : List (Option String)) (q : String),
    q.length ≤ 100 → (genLoop frags q).2.length ≤ 100 := by
  intro frags
  induction frags with
  | nil => intro q hq; simpa [genLoop] using hq
  | cons f rest ih =>
    intro q hq
    simp only [genLoop, stepQueue_eq]
    split
    · exact ih "" (by simp)
    next h => exact ih _ (Nat.le_of_not_lt h)

lemma genLoop_skip (f₀ : Option String) (hf : fragVal f₀ = "") :
    ∀ (pre post : List (Option String)) (q : String), q.length ≤ 100 →
    genLoop (pre ++ f₀ :: post) q = genLoop (pre ++ post) q := by
  intro pre
  induction pre with
  | nil =>
    intro post q hq
    simp only [List.nil_append, genLoop, stepQueue_eq, hf, String.append_empty]
    rw [if_neg (Nat.not_lt.mpr hq)]
  | cons f pre' ih =>
    intro post q hq
    simp only [List.cons_append, genLoop, stepQueue_eq, List.append_eq]
    split
    · rw [ih post "" (by simp)]
    next h => exact ih post _ (Nat.le_of_not_lt h)

lemma genLoop_small : ∀ (frags : List (Option String)) (q : String),
    (q ++ fragsConcat frags).length ≤ 100 →
    genLoop frags q = ([], q ++ fragsConcat frags) := by
  intro frags
  induction frags with
  | nil => intro q hq; simp [genLoop, fragsConcat]
  | cons f rest ih =>
    intro q hq
    rw [fragsConcat, ← String.append_assoc] at hq ⊢
    have hle : (q ++ fragVal f).length ≤ 100 := by
      simp only [String.length_append] at hq ⊢
      omega
    simp only [genLoop, stepQueue_eq]
    rw [if_neg (Nat.not_lt.mpr hle)]
    exact ih (q ++ fragVal f) hq

lemma strJoin_append_singleton : ∀ (cs : List String) (q : String),
    strJoin (cs ++ [q]) = strJoin cs ++ q := by
  intro cs
  induction cs with
  | nil => intro q; simp [strJoin]
  | cons c rest ih =>
    intro q
    simp only [List.cons_append, List.append_eq, strJoin, ih, String.append_assoc]

lemma accumulateOutput_go : ∀ (cs : List String) (acc : String),
    cs.foldl (fun a c => if c = "" then a else a ++ c) acc = acc ++ strJoin cs := by
  intro cs
  induction cs with
  | nil => intro acc; simp [strJoin]
  | cons c rest ih =>
    intro acc
    by_cases h : c = ""
    · simp [h, ih, strJoin]
    · simp [h, ih, strJoin, String.append_assoc]

lemma accumulateOutput_eq (cs : List String) :
    accumulateOutput cs = strJoin cs := by
  rw [accumulateOutput, accumulateOutput_go, String.empty_append]

lemma accumTexts_chain : ∀ (cs : List String) (acc : String),
    List.Chain' ExtendsByAppend (accumTexts cs acc) := by
  intro cs
  induction cs with
  | nil => intro acc; simp [accumTexts]
  | cons c rest ih =>
    intro acc
    cases rest with
    | nil => simp [accumTexts]
    | cons c' rest' =>
      simp only [accumTexts]
      exact List.Chain'.cons ⟨c', rfl⟩ (ih (acc ++ c))

lemma full_eq (frags : List (Option String)) :
    accumulateOutput ((genLoop frags "").1 ++ [(genLoop frags "").2]) =
      fragsConcat frags := by
  rw [accumulateOutput_eq, strJoin_append_singleton, genLoop_join,
    String.empty_append]

lemma message_handler_empty (ud : UserData) (frags : List (Option String))
    (err : Bool) :
    message_handler ud "" frags err =
      ({ messages := some (ud.messages.getD []),
         model := some (ud.model.getD "llama3-8b-8192"),
         system_prompt := ud.system_prompt }, .emptyMessage) := by
  obtain ⟨msgs, mdl, sp⟩ := ud
  cases msgs <;> cases mdl <;> simp [message_handler]

lemma message_handler_ok (ud : UserData) (text : String)
    (frags : List (Option String)) (h : text ≠ "") :
    message_handler ud text frags false =
      ({ messages := some (ud.messages.getD [] ++
            [⟨"user", text⟩, ⟨"system", fragsConcat frags⟩]),
         model := some (ud.model.getD "llama3-8b-8192"),
         system_prompt := ud.system_prompt }, .completed) := by
  obtain ⟨msgs, mdl, sp⟩ := ud
  cases msgs <;> cases mdl <;>
    simp [message_handler, generate_response, generate_chunks, h, full_eq]

lemma message_handler_err (ud : UserData) (text : String)
    (frags : List (Option String)) (h : text ≠ "") :
    message_handler ud text frags true =
      ({ messages := some (ud.messages.getD [] ++ [⟨"user", text⟩]),
         model := some (ud.model.getD "llama3-8b-8192"),
         system_prompt := ud.system_prompt }, .raised) := by
  obtain ⟨msgs, mdl, sp⟩ := ud
  cases msgs <;> cases mdl <;>
    simp [message_handler, generate_response, generate_chunks, h]

/-- A fragment whose text overflows the 100-character buffer in one step. -/
def longFrag : String := String.mk (List.replicate 101 'a')

/-- C1 fails on the code at fragments `[longFrag, "b"]`: the generator's
second emission is the bare chunk `"b"`, which neither extends the first
emission `longFrag` by appending nor equals the accumulated full text
`longFrag ++ "b"`; the last emission also differs from the concatenation
of all fragments. -/
theorem claim_C1_counterexample :
    generate_chunks [some longFrag, some "b"] false = .ok [longFrag, "b"] ∧
    ¬ ExtendsByAppend longFrag "b" ∧
    "b" ≠ longFrag ++ "b" ∧
    "b" ≠ fragsConcat [some longFrag, some "b"] := by
  refine ⟨rfl, ?_, by decide, by decide⟩
  rintro ⟨t, ht⟩
  have h := congrArg String.length ht
  rw [String.length_append] at h
  have h1 : ("b" : String).length = 1 := rfl
  have h2 : longFrag.length = 101 := by simp [longFrag, String.length]
  omega

/-- C1 (amended): `generate_response` emits pending-buffer deltas, not
full-text snapshots. The caller-side accumulated texts (running
concatenations of the emitted chunks) are monotonically non-decreasing by
prefix-extension, and the concatenation of all emitted chunks equals the
concatenation of all fragments. -/
theorem claim_C1 : ∀ frags : List (Option String), ∃ chunks : List String,
    generate_chunks frags false = .ok chunks ∧
    chunks ≠ [] ∧
    strJoin chunks = fragsConcat frags ∧
    List.Chain' ExtendsByAppend (accumTexts chunks "") := by
  intro frags
  refine ⟨(genLoop frags "").1 ++ [(genLoop frags "").2], rfl, by simp, ?_,
    accumTexts_chain _ _⟩
  rw [strJoin_append_singleton, genLoop_join, String.empty_append]

/-- C2: the code appends the completed generation to history with role
`"system"`, not `"assistant"` (`handlers.py` line 153). At the failing
input — history `[]`, user text `"hi"`, fragments concatenating to
`"Hello world"` — the history ends with `{user,"hi"}, {system,"Hello
world"}` instead of the claimed `{assistant,"Hello world"}`. -/
theorem claim_C2 :
    message_handler ⟨some [], some "llama3-8b-8192", none⟩ "hi"
        [some "Hello ", some "world"] false =
      (⟨some [⟨"user", "hi"⟩, ⟨"system", "Hello world"⟩],
        some "llama3-8b-8192", none⟩, .completed) ∧
    (Turn.mk "system" "Hello world").role ≠ "assistant" := by
  exact ⟨by decide, by decide⟩

/-- C3 fails on the code: when the upstream stream raises after yielding
`"Hello"`, the non-empty partial text is not persisted at all — the
handler dies with the raw exception and history holds only the user turn. -/
theorem claim_C3_counterexample :
    message_handler ⟨some [], some "llama3-8b-8192", none⟩ "hi"
        [some "Hello"] true =
      (⟨some [⟨"user", "hi"⟩], some "llama3-8b-8192", none⟩, .raised) ∧
    fragsConcat [some "Hello"] ≠ "" := by
  exact ⟨by decide, by decide⟩

/-- C3 (amended): if the upstream completion call fails mid-stream, the
generator stops emitting (no final flush: the error carries only the
chunks already yielded, whose concatenation is a prefix of the fragment
text) and the raw exception propagates out of `message_handler`; the
partial text is never appended to history, not even when non-empty — the
only mutations that survive are the defaulted keys and the user turn —
and there is no retry. -/
theorem claim_C3 (ud : UserData) (text : String)
    (frags : List (Option String)) (h : text ≠ "") :
    message_handler ud text frags true =
      ({ messages := some (ud.messages.getD [] ++ [⟨"user", text⟩]),
         model := some (ud.model.getD "llama3-8b-8192"),
         system_prompt := ud.system_prompt }, .raised) ∧
    ∃ cs, generate_chunks frags true = .error cs ∧
      ExtendsByAppend (strJoin cs) (fragsConcat frags) := by
  refine ⟨message_handler_err ud text frags h,
    (genLoop frags "").1, rfl, (genLoop frags "").2, ?_⟩
  rw [genLoop_join, String.empty_append]

/-- Witness for C3 at history `[]`, text `"hi"`, one fragment `"Hello"`. -/
theorem claim_C3_witness :
    message_handler ⟨some [], some "m", none⟩ "hi" [some "Hello"] true =
      ({ messages := some ((some ([] : List Turn)).getD [] ++ [⟨"user", "hi"⟩]),
         model := some ((some "m").getD "llama3-8b-8192"),
         system_prompt := none }, .raised) ∧
    ∃ cs, generate_chunks [some "Hello"] true = .error cs ∧
      ExtendsByAppend (strJoin cs) (fragsConcat [some "Hello"]) :=
  claim_C3 ⟨some [], some "m", none⟩ "hi" [some "Hello"] (by decide)

/-- C4 fails on the code: a callback for the identifier `"not-a-model"`,
which is outside `models`, is not rejected — `session.model` is
overwritten with it. -/
theorem claim_C4_counterexample :
    change_model_callback_handler ⟨some [], some "llama3-8b-8192", none⟩
        "change_model_not-a-model" =
      ⟨some [], some "not-a-model", none⟩ ∧
    "not-a-model" ∉ models ∧
    some "not-a-model" ≠ some "llama3-8b-8192" := by
  exact ⟨by decide, by decide, by decide⟩

/-- C4 (amended): `change_model_callback_handler` performs no allow-list
validation: it unconditionally overwrites `session.model` with the
callback data stripped of every `"change_model_"` occurrence, touching
nothing else; the allow-list only determines which buttons
`model_command_handler` offers, and every allow-listed button indeed
selects its model. -/
theorem claim_C4 :
    (∀ (ud : UserData) (callback_data : String),
      change_model_callback_handler ud callback_data =
        { ud with model := some (pyReplace callback_data "change_model_" "") }) ∧
    (∀ (ud : UserData) (m : String), m ∈ models →
      (change_model_callback_handler ud ("change_model_" ++ m)).model = some m) := by
  refine ⟨fun ud cd => rfl, fun ud m hm => ?_⟩
  fin_cases hm <;> (simp only [change_model_callback_handler]; decide)

/-- Witness for C4's second conjunct at the first allow-listed model. -/
theorem claim_C4_witness :
    (change_model_callback_handler ⟨none, none, none⟩
        ("change_model_" ++ "llama3-8b-8192")).model = some "llama3-8b-8192" :=
  claim_C4.2 ⟨none, none, none⟩ "llama3-8b-8192" (by decide)

/-- C5 fails on the code for whitespace-only input: `" "` is truthy in
Python (`if not message` catches only the empty string), so
`message_handler` runs generation and mutates history. Starting from a
fresh chat (empty history), sending `" "` with one fragment `"x"` appends
two turns. -/
theorem claim_C5_counterexample :
    pyStrip " " = "" ∧
    message_handler ⟨some [], some "llama3-8b-8192", none⟩ " " [some "x"] false =
      (⟨some [⟨"user", " "⟩, ⟨"system", "x"⟩], some "llama3-8b-8192", none⟩,
       .completed) := by
  exact ⟨by decide, by decide⟩

/-- C5 (amended): only the exactly-empty text is a no-op — the handler
returns before any generation, leaving history as it was (an absent
`messages` key is materialized as the empty list and an absent `model`
key is defaulted); in particular `new_chat` followed by
`message_handler ""` leaves history unchanged. Whitespace-only text is
processed as an ordinary message. -/
theorem claim_C5 : ∀ (ud : UserData) (frags : List (Option String)) (err : Bool),
    message_handler ud "" frags err =
      ({ messages := some (ud.messages.getD []),
         model := some (ud.model.getD "llama3-8b-8192"),
         system_prompt := ud.system_prompt }, .emptyMessage) ∧
    (message_handler (new_chat ud) "" frags err).1.messages =
      (new_chat ud).messages := by
  intro ud frags err
  refine ⟨message_handler_empty ud frags err, ?_⟩
  rw [message_handler_empty]
  rcases ud with ⟨msgs, mdl, sp⟩
  cases sp <;> simp [new_chat]

/-- C6: in the awaiting-prompt dialog state, `get_system_prompt` clears
`system_prompt` when the lower-cased, stripped inbound text is `"clear"`
and otherwise stores the literal text; either branch rebuilds history via
`new_chat` from the possibly-new prompt, leaves `model` untouched, and
returns `ConversationHandler.END` (dialog back to idle). In particular
text `"Be terse."` yields `system_prompt = "Be terse."` and history
`[{system, "Be terse."}]`. -/
theorem claim_C6 : ∀ (ud : UserData) (text : String),
    (get_system_prompt ud text).2 = ConversationHandler_END ∧
    (get_system_prompt ud text).1.model = ud.model ∧
    (if pyStrip (pyLower text) = "clear" then
      (get_system_prompt ud text).1.system_prompt = none ∧
      (get_system_prompt ud text).1.messages = some []
    else
      (get_system_prompt ud text).1.system_prompt = some text ∧
      (get_system_prompt ud text).1.messages = some [⟨"system", text⟩]) := by
  intro ud text
  by_cases h : pyStrip (pyLower text) = "clear" <;>
    simp [get_system_prompt, new_chat, h]

/-- C7: `new_chat` resets history to `[]` without a system prompt and to
`[{system, system_prompt}]` with one, touching neither `model` nor
`system_prompt`; hence setting a prompt then calling `new_chat` seeds the
single system turn, and clearing it then calling `new_chat` empties
history. -/
theorem claim_C7 : ∀ ud : UserData,
    (new_chat ud).model = ud.model ∧
    (new_chat ud).system_prompt = ud.system_prompt ∧
    (new_chat ud).messages =
      some (match ud.system_prompt with
            | some sp => [⟨"system", sp⟩]
            | none => []) ∧
    (∀ p : String,
      (new_chat { ud with system_prompt := some p }).messages =
        some [⟨"system", p⟩]) ∧
    (new_chat { ud with system_prompt := none }).messages = some [] := by
  intro ud
  rcases ud with ⟨msgs, mdl, sp⟩
  cases sp <;> simp [new_chat]

/-- C8 fails on the code: at fragments `[longFrag, "b"]` the single
emission after the stream ends is the leftover pending buffer `"b"`, not
the accumulated full text `longFrag ++ "b"`. -/
theorem claim_C8_counterexample :
    generate_chunks [some longFrag, some "b"] false = .ok [longFrag, "b"] ∧
    [longFrag, "b"].getLast? = some "b" ∧
    "b" ≠ longFrag ++ "b" ∧
    fragsConcat [some longFrag, some "b"] = longFrag ++ "b" := by
  exact ⟨rfl, rfl, by decide, rfl⟩

/-- C8 (amended): after the source stream ends exactly one final chunk is
emitted — the leftover pending buffer (at most 100 characters), not the
whole `full_text` — and it is emitted even when everything is empty;
every chunk emitted inside the loop exceeds 100 characters, and the
emitted chunks concatenate to the full fragment text. -/
theorem claim_C8 : ∀ frags : List (Option String),
    ∃ cs q, generate_chunks frags false = .ok (cs ++ [q]) ∧
      (∀ c ∈ cs, 100 < c.length) ∧
      q.length ≤ 100 ∧
      strJoin cs ++ q = fragsConcat frags ∧
      (fragsConcat frags = "" → cs = [] ∧ q = "") := by
  intro frags
  refine ⟨(genLoop frags "").1, (genLoop frags "").2, rfl,
    fun c hc => genLoop_chunks_long frags "" c hc,
    genLoop_final_short frags "" (by decide), ?_, ?_⟩
  · rw [genLoop_join, String.empty_append]
  · intro he
    have hs := genLoop_small frags "" (by rw [String.empty_append, he]; decide)
    rw [he, String.append_empty] at hs
    exact ⟨by rw [hs], by rw [hs]⟩

/-- C9: `cancelled_system_prompt` mutates nothing — `system_prompt`,
history and `model` are exactly as before — and returns
`ConversationHandler.END`, the idle dialog state. -/
theorem claim_C9 : ∀ ud : UserData,
    cancelled_system_prompt ud = (ud, ConversationHandler_END) ∧
    (cancelled_system_prompt ud).1.system_prompt = ud.system_prompt ∧
    (cancelled_system_prompt ud).1.messages = ud.messages ∧
    (cancelled_system_prompt ud).1.model = ud.model :=
  fun _ => ⟨rfl, rfl, rfl, rfl⟩

/-- C10: `None` and empty-string deltas are skipped without affecting the
accumulator or the pending buffer (inserting one anywhere in the fragment
stream leaves the generator's output unchanged), and on the
successful-completion path the handler appends the final turn
unconditionally — when the total generated text is empty, a turn with
empty content is still appended. -/
theorem claim_C10 :
    (∀ (pre post : List (Option String)) (err : Bool),
      generate_chunks (pre ++ none :: post) err =
        generate_chunks (pre ++ post) err) ∧
    (∀ (pre post : List (Option String)) (err : Bool),
      generate_chunks (pre ++ some "" :: post) err =
        generate_chunks (pre ++ post) err) ∧
    (∀ (ud : UserData) (text : String) (frags : List (Option String)),
      text ≠ "" →
      (message_handler ud text frags false).1.messages =
        some (ud.messages.getD [] ++
          [⟨"user", text⟩, ⟨"system", fragsConcat frags⟩])) := by
  refine ⟨?_, ?_, ?_⟩
  · intro pre post err
    simp [generate_chunks, genLoop_skip none rfl pre post "" (by decide)]
  · intro pre post err
    simp [generate_chunks, genLoop_skip (some "") rfl pre post "" (by decide)]
  · intro ud text frags h
    rw [message_handler_ok ud text frags h]

end GroqChat
